import Mathlib

/-!
Shallow embedding of the workflow execution engine of `melted-adw`
(`src/engine/executor.rs`, `src/engine/context.rs`, `src/engine/result.rs`,
`src/config/step.rs`, `src/config/workflow.rs`, `src/provider/traits.rs`,
`src/provider.rs`, `src/error.rs`).

Modelling conventions:
- `u32` values are `Nat`s; every `u32` addition performed by the code is
  taken modulo `2 ^ 32` (release-mode wrap-around semantics).
- `std::time::Duration` values are `Nat`s (nanoseconds); `Duration` addition
  panics on overflow in Rust, so plain `Nat` addition models every
  non-panicking execution.
- The asynchronous backend (`dyn ProviderClient`) is modelled as a
  deterministic oracle `Backend`: for each (step index, attempt number,
  user input) it yields the value the provider call resolves to, whether it
  resolves within the step's declared timeout, and the wall-clock duration
  the engine measures for the attempt.  The engine is instrumented to also
  return the list of backend invocations it performs, in order.
- `SystemTime` timestamps (run start/end, wall-clock total duration) are
  environmental and carry no claim; the model fills them with `0`.
-/

namespace MeltedAdw

/-- Modulus of Rust's `u32` arithmetic. -/
def u32Mod : Nat := 2 ^ 32

/-- Model tier of a step (src/config/step.rs, `ModelTier`). -/
inductive ModelTier
  | Heavy
  | Medium
  | Light
deriving DecidableEq

/-- AI provider selector (src/config/step.rs, `Provider`). -/
inductive Provider
  | Anthropic
  | OpenAI
deriving DecidableEq

/-- Configuration errors (src/error.rs, `ConfigError`); payloads that are
foreign error values in Rust are modelled by their message strings. -/
inductive ConfigError
  | FileRead (msg : String)
  | TomlDeserialize (msg : String)
  | TomlSerialize (msg : String)
  | Validation (msg : String)
deriving DecidableEq

/-- Provider errors (src/error.rs, `ProviderError`); payloads that are
foreign error values in Rust are modelled by their message strings. -/
inductive ProviderError
  | CliNotFound (cmd pkg : String)
  | AuthenticationError (detail cmd : String)
  | CliExecutionError (msg : String)
  | InvalidModelTier (msg : String)
  | RateLimitExceeded
  | Timeout (msg : String)
  | InvalidResponse (msg : String)
  | ProcessError (msg : String)
  | JsonError (msg : String)
  | Utf8Error (msg : String)
deriving DecidableEq

/-- Token usage of one provider call (src/provider/traits.rs, `TokenUsage`). -/
structure TokenUsage where
  input_tokens : Nat
  output_tokens : Nat
deriving DecidableEq

/-- Total token count, `input_tokens + output_tokens` as a `u32` addition
(src/provider/traits.rs, `TokenUsage::total`). -/
def TokenUsage.total (u : TokenUsage) : Nat :=
  (u.input_tokens + u.output_tokens) % u32Mod

/-- Generation stop reason (src/provider/traits.rs, `StopReason`). -/
inductive StopReason
  | EndTurn
  | MaxTokens
  | StopSequence
  | ContentFilter
  | Unknown
deriving DecidableEq

/-- Response of one provider call (src/provider/traits.rs, `ProviderResponse`). -/
structure ProviderResponse where
  content : String
  token_usage : TokenUsage
  stop_reason : StopReason
  model : String
deriving DecidableEq

/-- One workflow step (src/config/step.rs, `WorkflowStep`).  `timeout` is in
seconds, `retry_count` is the optional maximum number of retries. -/
structure WorkflowStep where
  name : String
  system_prompt : String
  provider : Provider
  model_tier : ModelTier
  timeout : Option Nat
  retry_count : Option Nat
deriving DecidableEq

/-- A validated workflow definition (src/config/workflow.rs, `Workflow`);
description/version metadata carries no engine behaviour and is omitted. -/
structure Workflow where
  name : String
  steps : List WorkflowStep
deriving DecidableEq

/-- Output of one successfully executed step (src/engine/context.rs,
`StepOutput`); `execution_time` is a duration in nanoseconds. -/
structure StepOutput where
  step_name : String
  content : String
  token_usage : TokenUsage
  execution_time : Nat
deriving DecidableEq

/-- In-place update of a `HashMap<String, u32>` entry as performed by
`retry_counts.entry(name).or_insert(0) += 1`: modelled on an association
list with unique keys. -/
def incrementRetryCounts : List (String × Nat) → String → List (String × Nat)
  | [], name => [(name, 1)]
  | (k, v) :: rest, name =>
      if k = name then (k, (v + 1) % u32Mod) :: rest
      else (k, v) :: incrementRetryCounts rest name

/-- Lookup in the retry-count map, defaulting to `0`
(`retry_counts.get(name).unwrap_or(&0)`). -/
def lookupRetry : List (String × Nat) → String → Nat
  | [], _ => 0
  | (k, v) :: rest, name => if k = name then v else lookupRetry rest name

/-- Execution context of one workflow run (src/engine/context.rs,
`ExecutionContext`); the `start_time : SystemTime` field is environmental
and omitted.  The `HashMap` of retry counts is an association list with
unique keys. -/
structure ExecutionContext where
  workflow_name : String
  steps_executed : List String
  current_step : Option String
  step_outputs : List StepOutput
  total_tokens_used : Nat
  execution_times : List Nat
  retry_counts : List (String × Nat)
deriving DecidableEq

/-- Fresh context (src/engine/context.rs, `ExecutionContext::new`). -/
def ExecutionContext.new (workflow_name : String) : ExecutionContext :=
  { workflow_name
    steps_executed := []
    current_step := none
    step_outputs := []
    total_tokens_used := 0
    execution_times := []
    retry_counts := [] }

/-- Mark a step as in flight (src/engine/context.rs, `start_step`). -/
def ExecutionContext.start_step (ctx : ExecutionContext) (step_name : String) :
    ExecutionContext :=
  { ctx with current_step := some step_name }

/-- Record a completed step (src/engine/context.rs, `record_step_result`):
adds the output's token total to the accumulator (`u32` addition), appends
the duration, the step name and the output, and clears the in-flight
marker. -/
def ExecutionContext.record_step_result (ctx : ExecutionContext)
    (output : StepOutput) : ExecutionContext :=
  { ctx with
    total_tokens_used := (ctx.total_tokens_used + output.token_usage.total) % u32Mod
    execution_times := ctx.execution_times ++ [output.execution_time]
    steps_executed := ctx.steps_executed ++ [output.step_name]
    step_outputs := ctx.step_outputs ++ [output]
    current_step := none }

/-- Most recently recorded output (src/engine/context.rs, `get_last_output`). -/
def ExecutionContext.get_last_output (ctx : ExecutionContext) : Option StepOutput :=
  ctx.step_outputs.getLast?

/-- Lookup of a step's output by name (src/engine/context.rs,
`get_step_output`): `self.step_outputs.iter().find(..)`, i.e. the first
element whose `step_name` matches. -/
def ExecutionContext.get_step_output (ctx : ExecutionContext)
    (step_name : String) : Option StepOutput :=
  ctx.step_outputs.find? (fun output => output.step_name = step_name)

/-- Increment a step's retry counter (src/engine/context.rs,
`increment_retry`). -/
def ExecutionContext.increment_retry (ctx : ExecutionContext)
    (step_name : String) : ExecutionContext :=
  { ctx with retry_counts := incrementRetryCounts ctx.retry_counts step_name }

/-- Read a step's retry counter, default `0` (src/engine/context.rs,
`get_retry_count`). -/
def ExecutionContext.get_retry_count (ctx : ExecutionContext)
    (step_name : String) : Nat :=
  lookupRetry ctx.retry_counts step_name

/-- Cumulative token count (src/engine/context.rs, `total_tokens`). -/
def ExecutionContext.total_tokens (ctx : ExecutionContext) : Nat :=
  ctx.total_tokens_used

/-- Sum of the recorded per-step durations (src/engine/context.rs,
`total_duration`). -/
def ExecutionContext.total_duration (ctx : ExecutionContext) : Nat :=
  ctx.execution_times.sum

/-- Status of one step in the final result (src/engine/result.rs,
`StepStatus`). -/
inductive StepStatus
  | Success
  | Failed
  | Retried (attempts : Nat)
  | Skipped
deriving DecidableEq

/-- Overall workflow status (src/engine/result.rs, `ExecutionStatus`). -/
inductive ExecutionStatus
  | Success
  | PartialSuccess (completed total : Nat)
  | Failed
deriving DecidableEq

/-- Result of one executed step (src/engine/result.rs, `StepResult`);
`duration` is in nanoseconds. -/
structure StepResult where
  step_name : String
  index : Nat
  status : StepStatus
  output : Option String
  token_usage : TokenUsage
  duration : Nat
  retry_count : Nat
  error : Option String
deriving DecidableEq

/-- Final result of a workflow run (src/engine/result.rs, `WorkflowResult`);
the `SystemTime` start/end timestamps are environmental and omitted, and
`total_duration` (a wall-clock delta in the code) is modelled as `0`. -/
structure WorkflowResult where
  workflow_name : String
  status : ExecutionStatus
  steps : List StepResult
  total_duration : Nat
  total_tokens_used : Nat
  error : Option String
deriving DecidableEq

/-- Success query (src/engine/result.rs, `WorkflowResult::is_success`). -/
def WorkflowResult.is_success (r : WorkflowResult) : Bool :=
  match r.status with
  | .Success => true
  | _ => false

/-- Count of steps whose status is `Success` or `Retried`
(src/engine/result.rs, `WorkflowResult::completed_steps`). -/
def WorkflowResult.completed_steps (r : WorkflowResult) : Nat :=
  (r.steps.filter (fun step =>
    match step.status with
    | .Success => true
    | .Retried _ => true
    | _ => false)).length

/-- Engine-level error (src/engine/result.rs, `ExecutionError`). -/
inductive ExecutionError
  | ConfigError (e : ConfigError)
  | ProviderError (e : ProviderError)
  | TimeoutError (step_name : String) (timeout_secs : Nat)
  | ValidationError (msg : String)
  | ContextError (msg : String)
deriving DecidableEq

/-- The workflow executor (src/engine/executor.rs, `WorkflowExecutor`). -/
structure WorkflowExecutor where
  workflow : Workflow
  initial_input : Option String
deriving DecidableEq

/-- Constructor (src/engine/executor.rs, `WorkflowExecutor::new`). -/
def WorkflowExecutor.new (workflow : Workflow) : WorkflowExecutor :=
  { workflow, initial_input := none }

/-- Builder-style initial input (src/engine/executor.rs,
`with_initial_input`). -/
def WorkflowExecutor.with_initial_input (ex : WorkflowExecutor)
    (input : String) : WorkflowExecutor :=
  { ex with initial_input := some input }

/-- Observed behaviour of one backend attempt: the value the provider call
resolves to, whether it resolves within the step's declared timeout
(consulted only when the step sets a timeout), and the wall-clock duration
the engine measures for the attempt (nanoseconds). -/
structure AttemptBehavior where
  result : Except ProviderError ProviderResponse
  finishes_in_time : Bool
  duration : Nat

/-- Deterministic backend oracle: behaviour of the attempt numbered
`attempt` of the step at `step_index`, given the `user_input` passed to the
provider call. -/
abbrev Backend := Nat → Nat → String → AttemptBehavior

/-- Record of one backend invocation performed by the engine. -/
structure BackendCall where
  step_index : Nat
  attempt : Nat
  system_prompt : String
  user_input : String
deriving DecidableEq

/-- Provider factory (src/provider.rs, `create_provider`): both match arms
return `Ok`, so it is infallible; the client's behaviour itself lives in
the `Backend` oracle. -/
def create_provider : Provider → Except ProviderError Unit
  | .Anthropic => .ok ()
  | .OpenAI => .ok ()

/-- Single provider call with optional timeout (src/engine/executor.rs,
`execute_with_timeout`): with a declared timeout the call races a timer —
if the timer elapses first the attempt fails with `TimeoutError` carrying
the step name and the timeout; otherwise the call's own result (success or
`ProviderError`) is returned.  Without a timeout the call is awaited
without a time bound. -/
def execute_with_timeout (b : AttemptBehavior) (step : WorkflowStep) :
    Except ExecutionError ProviderResponse :=
  match create_provider step.provider with
  | .error e => .error (.ProviderError e)
  | .ok _ =>
    match step.timeout with
    | some timeout_secs =>
        if b.finishes_in_time then
          match b.result with
          | .ok response => .ok response
          | .error e => .error (.ProviderError e)
        else
          .error (.TimeoutError step.name timeout_secs)
    | none =>
        match b.result with
        | .ok response => .ok response
        | .error e => .error (.ProviderError e)

/-- Single step execution (src/engine/executor.rs, `execute_step`): on
provider success the `StepOutput` is recorded in the context and a
`Success` step result is returned; on failure the error is propagated and
the context is returned as it was. -/
def execute_step (b : AttemptBehavior) (step : WorkflowStep) (step_index : Nat)
    (ctx : ExecutionContext) :
    Except ExecutionError StepResult × ExecutionContext :=
  match execute_with_timeout b step with
  | .error e => (.error e, ctx)
  | .ok response =>
      let duration := b.duration
      let ctx2 := ctx.record_step_result
        { step_name := step.name
          content := response.content
          token_usage := response.token_usage
          execution_time := duration }
      (.ok { step_name := step.name
             index := step_index
             status := .Success
             output := some response.content
             token_usage := response.token_usage
             duration := duration
             retry_count := 0
             error := none }, ctx2)

/-- Body of the retry loop of `execute_step_with_retry`
(src/engine/executor.rs): `remaining` is the number of attempts still
allowed after the current one (`max_retries - attempt`), so that the loop
runs for `attempt` in `0 ..= max_retries`.  Before every retry
(`attempt > 0`) the step's retry counter is incremented; on success the
step result's status becomes `Retried` carrying the attempt count when
`attempt > 0`; after the last failed attempt the last observed error is
returned.  The third component lists the backend invocations made. -/
def execute_step_with_retry_aux (backend : Backend) (step : WorkflowStep)
    (step_index : Nat) (user_input : String) (ctx : ExecutionContext)
    (attempt remaining : Nat) :
    Except ExecutionError StepResult × ExecutionContext × List BackendCall :=
  let ctx1 := if attempt > 0 then ctx.increment_retry step.name else ctx
  let b := backend step_index attempt user_input
  let call : BackendCall :=
    { step_index, attempt, system_prompt := step.system_prompt, user_input }
  match execute_step b step step_index ctx1 with
  | (.ok result, ctx2) =>
      let result2 :=
        if attempt > 0 then
          { result with status := .Retried attempt, retry_count := attempt }
        else result
      (.ok result2, ctx2, [call])
  | (.error e, ctx2) =>
      match remaining with
      | 0 => (.error e, ctx2, [call])
      | remaining2 + 1 =>
          let run :=
            execute_step_with_retry_aux backend step step_index user_input
              ctx2 (attempt + 1) remaining2
          (run.1, run.2.1, call :: run.2.2)

/-- Retry wrapper (src/engine/executor.rs, `execute_step_with_retry`):
`max_retries` is the step's configured retry count or `0` when unset. -/
def execute_step_with_retry (backend : Backend) (step : WorkflowStep)
    (step_index : Nat) (user_input : String) (ctx : ExecutionContext) :
    Except ExecutionError StepResult × ExecutionContext × List BackendCall :=
  execute_step_with_retry_aux backend step step_index user_input ctx 0
    (step.retry_count.getD 0)

/-- The step loop of `execute` (src/engine/executor.rs, lines 161-177):
each step is marked as started, run through the retry wrapper with the
current input, its output becomes the next step's input, and its step
result is appended; a terminal step failure aborts the loop with that
error. -/
def execute_steps (backend : Backend) (steps : List WorkflowStep)
    (index : Nat) (current_input : String) (ctx : ExecutionContext) :
    Except ExecutionError (List StepResult) × ExecutionContext × List BackendCall :=
  match steps with
  | [] => (.ok [], ctx, [])
  | step :: rest =>
      let ctx1 := ctx.start_step step.name
      match execute_step_with_retry backend step index current_input ctx1 with
      | (.error e, ctx2, calls) => (.error e, ctx2, calls)
      | (.ok result, ctx2, calls) =>
          let next_input :=
            match result.output with
            | some output => output
            | none => current_input
          let run := execute_steps backend rest (index + 1) next_input ctx2
          match run.1 with
          | .error e => (.error e, run.2.1, calls ++ run.2.2)
          | .ok results => (.ok (result :: results), run.2.1, calls ++ run.2.2)

/-- Top-level run (src/engine/executor.rs, `execute`): fresh context named
for the workflow, initial input defaulting to the empty string, the step
loop, and on success a `WorkflowResult` with status `Success`.  The model
additionally returns the final context and the backend-call trace. -/
def WorkflowExecutor.execute (ex : WorkflowExecutor) (backend : Backend) :
    Except ExecutionError WorkflowResult × ExecutionContext × List BackendCall :=
  let ctx := ExecutionContext.new ex.workflow.name
  let current_input := ex.initial_input.getD ""
  match execute_steps backend ex.workflow.steps 0 current_input ctx with
  | (.error e, ctx2, calls) => (.error e, ctx2, calls)
  | (.ok step_results, ctx2, calls) =>
      (.ok { workflow_name := ex.workflow.name
             status := .Success
             steps := step_results
             total_duration := 0
             total_tokens_used := ctx2.total_tokens
             error := none }, ctx2, calls)

/-- Recording a sequence of step outputs in order
(`record_step_result` iterated). -/
def recordOutputs (ctx : ExecutionContext) (outs : List StepOutput) :
    ExecutionContext :=
  outs.foldl ExecutionContext.record_step_result ctx

/-- Content of the response an attempt resolves to (empty for failures);
used by the specification-side call-sequence description below. -/
def attempt_content (b : AttemptBehavior) : String :=
  match b.result with
  | .ok r => r.content
  | .error _ => ""

/-- Specification-side description of the backend-call sequence, following
the spec's words (§8, Sequencing): for a workflow whose backend calls all
succeed, one call per step in definition order, each call's `user_input`
equal to the content of the previous call's response, the first equal to
the caller-provided initial input.  The sequencing claim compares this
description with the trace the engine actually produces. -/
def specSequencedCalls (backend : Backend) :
    List WorkflowStep → Nat → String → List BackendCall
  | [], _, _ => []
  | step :: rest, index, input =>
      { step_index := index, attempt := 0, system_prompt := step.system_prompt,
        user_input := input }
        :: specSequencedCalls backend rest (index + 1)
             (attempt_content (backend index 0 input))

/-! Helper lemmas about the execution context. -/

theorem recordOutputs_nil (ctx : ExecutionContext) :
    recordOutputs ctx [] = ctx := rfl

theorem recordOutputs_cons (ctx : ExecutionContext) (o : StepOutput)
    (outs : List StepOutput) :
    recordOutputs ctx (o :: outs) = recordOutputs (ctx.record_step_result o) outs := rfl

theorem recordOutputs_execution_times (outs : List StepOutput) :
    ∀ ctx : ExecutionContext,
      (recordOutputs ctx outs).execution_times
        = ctx.execution_times ++ outs.map (fun o => o.execution_time) := by
  induction outs with
  | nil => intro ctx; simp [recordOutputs]
  | cons o rest ih =>
      intro ctx
      rw [recordOutputs_cons, ih]
      simp [ExecutionContext.record_step_result]

theorem recordOutputs_total_tokens (outs : List StepOutput) :
    ∀ ctx : ExecutionContext,
      ctx.total_tokens_used
          + (outs.map (fun o =>
              o.token_usage.input_tokens + o.token_usage.output_tokens)).sum
        < u32Mod →
      (recordOutputs ctx outs).total_tokens_used
        = ctx.total_tokens_used
          + (outs.map (fun o => o.token_usage.total)).sum := by
  induction outs with
  | nil => intro ctx _; simp [recordOutputs]
  | cons o rest ih =>
      intro ctx h
      simp only [List.map_cons, List.sum_cons] at h
      have hsmall : o.token_usage.input_tokens + o.token_usage.output_tokens < u32Mod := by
        omega
      have htot : o.token_usage.total
          = o.token_usage.input_tokens + o.token_usage.output_tokens :=
        Nat.mod_eq_of_lt hsmall
      have hacc : ctx.total_tokens_used + o.token_usage.total < u32Mod := by
        rw [htot]; omega
      rw [recordOutputs_cons, ih]
      · simp only [ExecutionContext.record_step_result, List.map_cons, List.sum_cons]
        rw [Nat.mod_eq_of_lt hacc]
        omega
      · simp only [ExecutionContext.record_step_result]
        rw [Nat.mod_eq_of_lt hacc, htot]
        omega

/-- C6.  For every sequence of step outputs recorded into a fresh execution
context, `total_tokens` equals the sum of `token_usage.total()` (input plus
output tokens) over the recorded outputs, and `total_duration` equals the
sum of the recorded durations.  The statement quantifies over all recorded
sequences, hence over every intermediate point of a run; the token side
assumes the grand token total fits in a `u32`, which is exactly the regime
in which the Rust accumulator does not wrap. -/
theorem c6_telemetry_invariant (name : String) (outs : List StepOutput)
    (h : (outs.map (fun o =>
        o.token_usage.input_tokens + o.token_usage.output_tokens)).sum < u32Mod) :
    (recordOutputs (ExecutionContext.new name) outs).total_tokens
        = (outs.map (fun o => o.token_usage.total)).sum
      ∧ (recordOutputs (ExecutionContext.new name) outs).total_duration
        = (outs.map (fun o => o.execution_time)).sum := by
  constructor
  · have := recordOutputs_total_tokens outs (ExecutionContext.new name)
      (by simpa [ExecutionContext.new] using h)
    simpa [ExecutionContext.total_tokens, ExecutionContext.new] using this
  · rw [ExecutionContext.total_duration, recordOutputs_execution_times]
    simp [ExecutionContext.new]

/-- Witness for C6 at a concrete two-output sequence. -/
theorem c6_telemetry_invariant_witness :
    (([⟨"a", "x", ⟨100, 50⟩, 1000⟩, ⟨"b", "y", ⟨200, 100⟩, 2000⟩] :
          List StepOutput).map (fun o =>
        o.token_usage.input_tokens + o.token_usage.output_tokens)).sum < u32Mod
    ∧ ((recordOutputs (ExecutionContext.new "w")
          [⟨"a", "x", ⟨100, 50⟩, 1000⟩, ⟨"b", "y", ⟨200, 100⟩, 2000⟩]).total_tokens
        = (([⟨"a", "x", ⟨100, 50⟩, 1000⟩, ⟨"b", "y", ⟨200, 100⟩, 2000⟩] :
            List StepOutput).map (fun o => o.token_usage.total)).sum
      ∧ (recordOutputs (ExecutionContext.new "w")
          [⟨"a", "x", ⟨100, 50⟩, 1000⟩, ⟨"b", "y", ⟨200, 100⟩, 2000⟩]).total_duration
        = (([⟨"a", "x", ⟨100, 50⟩, 1000⟩, ⟨"b", "y", ⟨200, 100⟩, 2000⟩] :
            List StepOutput).map (fun o => o.execution_time)).sum) :=
  ⟨by decide, c6_telemetry_invariant "w" _ (by decide)⟩

/-- C7 counterexample.  Recording a second output for step name `s` does not
overwrite the earlier one: `get_step_output` scans `step_outputs` with
`find` and returns the first match, so after a duplicate record the lookup
still yields the old output, not the newly recorded one. -/
theorem c7_counterexample :
    (((ExecutionContext.new "w").record_step_result
          ⟨"s", "old", ⟨1, 2⟩, 5⟩).record_step_result
          ⟨"s", "new", ⟨3, 4⟩, 6⟩).get_step_output "s"
        ≠ some ⟨"s", "new", ⟨3, 4⟩, 6⟩
      ∧ (((ExecutionContext.new "w").record_step_result
          ⟨"s", "old", ⟨1, 2⟩, 5⟩).record_step_result
          ⟨"s", "new", ⟨3, 4⟩, 6⟩).get_step_output "s"
        = some ⟨"s", "old", ⟨1, 2⟩, 5⟩ := by
  constructor
  · decide
  · decide

/-- C7 amended.  `record_step_result` appends: when an output for the same
step name is already recorded, the lookup `get_step_output` still returns
the earliest recorded output for that name (the new output is reachable via
`get_last_output`), and lookups of other step names are unaffected. -/
theorem c7_amended (ctx : ExecutionContext) (output old : StepOutput)
    (h : ctx.get_step_output output.step_name = some old) :
    (ctx.record_step_result output).get_step_output output.step_name = some old
      ∧ (ctx.record_step_result output).get_last_output = some output
      ∧ ∀ t, t ≠ output.step_name →
          (ctx.record_step_result output).get_step_output t
            = ctx.get_step_output t := by
  refine ⟨?_, ?_, ?_⟩
  · simp only [ExecutionContext.get_step_output, ExecutionContext.record_step_result,
      List.find?_append] at h ⊢
    simp [h]
  · simp [ExecutionContext.get_last_output, ExecutionContext.record_step_result]
  · intro t ht
    simp only [ExecutionContext.get_step_output, ExecutionContext.record_step_result,
      List.find?_append]
    have : (List.find? (fun o => decide (o.step_name = t)) [output]) = none := by
      simp [List.find?, ht.symm]
    cases hfind : List.find? (fun o => decide (o.step_name = t)) ctx.step_outputs with
    | none => simp [Option.orElse, this]
    | some v => simp [Option.orElse]

/-- Witness for C7 amended at a concrete duplicate record. -/
theorem c7_amended_witness :
    ((ExecutionContext.new "w").record_step_result
        ⟨"s", "old", ⟨1, 2⟩, 5⟩).get_step_output "s" = some ⟨"s", "old", ⟨1, 2⟩, 5⟩
    ∧ ((((ExecutionContext.new "w").record_step_result
          ⟨"s", "old", ⟨1, 2⟩, 5⟩).record_step_result
          ⟨"s", "new", ⟨3, 4⟩, 6⟩).get_step_output "s" = some ⟨"s", "old", ⟨1, 2⟩, 5⟩
      ∧ (((ExecutionContext.new "w").record_step_result
          ⟨"s", "old", ⟨1, 2⟩, 5⟩).record_step_result
          ⟨"s", "new", ⟨3, 4⟩, 6⟩).get_last_output = some ⟨"s", "new", ⟨3, 4⟩, 6⟩
      ∧ ∀ t, t ≠ "s" →
          ((((ExecutionContext.new "w").record_step_result
            ⟨"s", "old", ⟨1, 2⟩, 5⟩).record_step_result
            ⟨"s", "new", ⟨3, 4⟩, 6⟩).get_step_output t
          = ((ExecutionContext.new "w").record_step_result
            ⟨"s", "old", ⟨1, 2⟩, 5⟩).get_step_output t)) :=
  ⟨by decide,
    c7_amended ((ExecutionContext.new "w").record_step_result ⟨"s", "old", ⟨1, 2⟩, 5⟩)
      ⟨"s", "new", ⟨3, 4⟩, 6⟩ ⟨"s", "old", ⟨1, 2⟩, 5⟩ (by decide)⟩

/-! Helper lemmas about the step runner. -/

theorem create_provider_ok (p : Provider) : create_provider p = .ok () := by
  cases p <;> rfl

theorem execute_with_timeout_ok (b : AttemptBehavior) (step : WorkflowStep)
    (r : ProviderResponse) (hr : b.result = .ok r)
    (hf : b.finishes_in_time = true) :
    execute_with_timeout b step = .ok r := by
  simp only [execute_with_timeout, create_provider_ok]
  cases step.timeout <;> simp [hr, hf]

theorem execute_with_timeout_error (b : AttemptBehavior) (step : WorkflowStep)
    (e : ExecutionError) (h : execute_with_timeout b step = .error e) :
    (∃ pe, e = .ProviderError pe)
      ∨ ∃ t, step.timeout = some t ∧ e = .TimeoutError step.name t := by
  simp only [execute_with_timeout, create_provider_ok] at h
  cases htimeout : step.timeout with
  | none =>
      simp only [htimeout] at h
      cases hres : b.result with
      | ok r => simp [hres] at h
      | error pe =>
          simp only [hres] at h
          left
          exact ⟨pe, by injection h with h2; exact h2.symm⟩
  | some t =>
      simp only [htimeout] at h
      cases hf : b.finishes_in_time with
      | true =>
          simp only [hf, if_true] at h
          cases hres : b.result with
          | ok r => simp [hres] at h
          | error pe =>
              simp only [hres] at h
              left
              exact ⟨pe, by injection h with h2; exact h2.symm⟩
      | false =>
          simp only [hf, Bool.false_eq_true, if_false] at h
          right
          exact ⟨t, rfl, by injection h with h2; exact h2.symm⟩

theorem execute_step_error (b : AttemptBehavior) (step : WorkflowStep)
    (idx : Nat) (ctx : ExecutionContext) (e : ExecutionError)
    (h : execute_with_timeout b step = .error e) :
    execute_step b step idx ctx = (.error e, ctx) := by
  simp [execute_step, h]

theorem execute_step_ok (b : AttemptBehavior) (step : WorkflowStep)
    (idx : Nat) (ctx : ExecutionContext) (r : ProviderResponse)
    (h : execute_with_timeout b step = .ok r) :
    execute_step b step idx ctx =
      (.ok { step_name := step.name
             index := idx
             status := .Success
             output := some r.content
             token_usage := r.token_usage
             duration := b.duration
             retry_count := 0
             error := none },
       ctx.record_step_result
         { step_name := step.name
           content := r.content
           token_usage := r.token_usage
           execution_time := b.duration }) := by
  simp [execute_step, h]

theorem lookupRetry_increment_ne (l : List (String × Nat)) (name t : String)
    (h : t ≠ name) :
    lookupRetry (incrementRetryCounts l name) t = lookupRetry l t := by
  induction l with
  | nil => simp [incrementRetryCounts, lookupRetry, Ne.symm h]
  | cons kv rest ih =>
      obtain ⟨k, v⟩ := kv
      by_cases hk : k = name
      · subst hk
        have hkt : k ≠ t := fun hh => h hh.symm
        simp [incrementRetryCounts, lookupRetry, hkt]
      · by_cases hkt : k = t
        · subst hkt
          simp [incrementRetryCounts, hk, lookupRetry]
        · simp [incrementRetryCounts, hk, lookupRetry, hkt, ih]

theorem lookupRetry_increment_eq (l : List (String × Nat)) (name : String) :
    lookupRetry (incrementRetryCounts l name) name
      = (lookupRetry l name + 1) % u32Mod := by
  induction l with
  | nil =>
      simp only [incrementRetryCounts, lookupRetry, if_pos rfl]
      exact (Nat.mod_eq_of_lt (by norm_num [u32Mod])).symm
  | cons kv rest ih =>
      obtain ⟨k, v⟩ := kv
      by_cases hk : k = name
      · subst hk
        simp [incrementRetryCounts, lookupRetry]
      · simp [incrementRetryCounts, hk, lookupRetry, ih]

theorem get_retry_count_increment_eq (ctx : ExecutionContext) (name : String) :
    (ctx.increment_retry name).get_retry_count name
      = (ctx.get_retry_count name + 1) % u32Mod :=
  lookupRetry_increment_eq ctx.retry_counts name

theorem get_retry_count_increment_ne (ctx : ExecutionContext) (name t : String)
    (h : t ≠ name) :
    (ctx.increment_retry name).get_retry_count t = ctx.get_retry_count t :=
  lookupRetry_increment_ne ctx.retry_counts name t h

theorem retry_aux_error_last (backend : Backend) (step : WorkflowStep)
    (idx : Nat) (input : String) :
    ∀ (rem a : Nat) (ctx ctx2 : ExecutionContext) (e : ExecutionError)
      (calls : List BackendCall),
      execute_step_with_retry_aux backend step idx input ctx a rem
        = (.error e, ctx2, calls) →
      execute_with_timeout (backend idx (a + rem) input) step = .error e := by
  intro rem
  induction rem with
  | zero =>
      intro a ctx ctx2 e calls h
      rw [execute_step_with_retry_aux] at h
      cases hw : execute_with_timeout (backend idx a input) step with
      | ok r =>
          rw [execute_step_ok (backend idx a input) step idx _ r hw] at h
          simp at h
      | error e2 =>
          rw [execute_step_error (backend idx a input) step idx _ e2 hw] at h
          simp only [Prod.mk.injEq] at h
          obtain ⟨h1, _⟩ := h
          injection h1 with h1
          rw [Nat.add_zero, hw, h1]
  | succ n ih =>
      intro a ctx ctx2 e calls h
      rw [execute_step_with_retry_aux] at h
      cases hw : execute_with_timeout (backend idx a input) step with
      | ok r =>
          rw [execute_step_ok (backend idx a input) step idx _ r hw] at h
          simp at h
      | error e2 =>
          rw [execute_step_error (backend idx a input) step idx _ e2 hw] at h
          simp only [Prod.mk.injEq] at h
          obtain ⟨h1, h2, h3⟩ := h
          have heq : a + (n + 1) = (a + 1) + n := by omega
          rw [heq]
          exact ih (a + 1)
            (if a > 0 then ctx.increment_retry step.name else ctx) ctx2 e _
            (by
              rw [show execute_step_with_retry_aux backend step idx input
                  (if a > 0 then ctx.increment_retry step.name else ctx) (a + 1) n
                  = ((execute_step_with_retry_aux backend step idx input
                      (if a > 0 then ctx.increment_retry step.name else ctx) (a + 1) n).1,
                     (execute_step_with_retry_aux backend step idx input
                      (if a > 0 then ctx.increment_retry step.name else ctx) (a + 1) n).2.1,
                     (execute_step_with_retry_aux backend step idx input
                      (if a > 0 then ctx.increment_retry step.name else ctx) (a + 1) n).2.2)
                from rfl]
              rw [h1, h2])

/-- C8.  An attempt of the step runner can only fail with `ProviderError` or
`TimeoutError`: `create_provider` is infallible, so no configuration-derived
error (`ExecutionError::ConfigError`) can ever be the outcome of a step
attempt, nor the terminal error of the retry wrapper.  The claim that a
`ConfigError` attempt failure is never retried therefore holds vacuously:
the retry loop itself does not branch on the error kind, but no attempt can
fail with `ConfigError` in the first place. -/
theorem c8_config_error_never_from_attempt :
    (∀ (b : AttemptBehavior) (step : WorkflowStep) (idx : Nat)
        (ctx : ExecutionContext) (e : ExecutionError) (c : ConfigError),
        (execute_step b step idx ctx).1 = .error e → e ≠ .ConfigError c)
    ∧ (∀ (backend : Backend) (step : WorkflowStep) (idx : Nat) (input : String)
        (ctx : ExecutionContext) (e : ExecutionError) (c : ConfigError)
        (ctx2 : ExecutionContext) (calls : List BackendCall),
        execute_step_with_retry backend step idx input ctx = (.error e, ctx2, calls) →
        e ≠ .ConfigError c) := by
  have hshape : ∀ (b : AttemptBehavior) (step : WorkflowStep) (e : ExecutionError)
      (c : ConfigError), execute_with_timeout b step = .error e → e ≠ .ConfigError c := by
    intro b step e c herr
    rcases execute_with_timeout_error b step e herr with ⟨pe, hpe⟩ | ⟨t, _, hte⟩
    · rw [hpe]; intro hcontra; cases hcontra
    · rw [hte]; intro hcontra; cases hcontra
  constructor
  · intro b step idx ctx e c h
    have herr : execute_with_timeout b step = .error e := by
      cases hw : execute_with_timeout b step with
      | ok r => rw [execute_step_ok b step idx ctx r hw] at h; cases h
      | error e2 =>
          rw [execute_step_error b step idx ctx e2 hw] at h
          injection h with h2
          rw [h2]
    exact hshape b step e c herr
  · intro backend step idx input ctx e c ctx2 calls h
    rw [execute_step_with_retry] at h
    exact hshape _ step e c
      (retry_aux_error_last backend step idx input _ 0 ctx ctx2 e calls h)

/-- Witness for C8 at a concrete failing attempt. -/
theorem c8_config_error_never_from_attempt_witness :
    (ExecutionError.ProviderError .RateLimitExceeded)
      ≠ ExecutionError.ConfigError (.Validation "x") :=
  c8_config_error_never_from_attempt.1
    { result := .error .RateLimitExceeded, finishes_in_time := true, duration := 0 }
    { name := "s", system_prompt := "p", provider := .Anthropic,
      model_tier := .Medium, timeout := none, retry_count := none }
    0 (ExecutionContext.new "w") (.ProviderError .RateLimitExceeded)
    (.Validation "x") rfl

theorem execute_steps_nil (backend : Backend) (idx : Nat) (input : String)
    (ctx : ExecutionContext) :
    execute_steps backend [] idx input ctx = (.ok [], ctx, []) := rfl

theorem execute_steps_cons (backend : Backend) (step : WorkflowStep)
    (rest : List WorkflowStep) (idx : Nat) (input : String)
    (ctx : ExecutionContext) :
    execute_steps backend (step :: rest) idx input ctx
      = (match execute_step_with_retry backend step idx input
            (ctx.start_step step.name) with
         | (.error e, ctx2, calls) => (.error e, ctx2, calls)
         | (.ok result, ctx2, calls) =>
             match execute_steps backend rest (idx + 1)
                 (match result.output with
                  | some output => output
                  | none => input) ctx2 with
             | (.error e, ctxb, calls2) => (.error e, ctxb, calls ++ calls2)
             | (.ok results, ctxb, calls2) =>
                 (.ok (result :: results), ctxb, calls ++ calls2)) := by
  rw [execute_steps]
  cases hrun : execute_step_with_retry backend step idx input
      (ctx.start_step step.name) with
  | mk res1 rest1 =>
      obtain ⟨ctxa, calls1⟩ := rest1
      cases res1 with
      | error e => rfl
      | ok result =>
          cases hrec : execute_steps backend rest (idx + 1)
              (match result.output with
               | some output => output
               | none => input) ctxa with
          | mk res2 rest2 =>
              obtain ⟨ctxb, calls2⟩ := rest2
              cases res2 with
              | error e => simp [hrec]
              | ok results => simp [hrec]

theorem execute_unfold (ex : WorkflowExecutor) (backend : Backend) :
    ex.execute backend
      = (match execute_steps backend ex.workflow.steps 0 (ex.initial_input.getD "")
            (ExecutionContext.new ex.workflow.name) with
         | (.error e, ctx2, calls) => (.error e, ctx2, calls)
         | (.ok step_results, ctx2, calls) =>
             (.ok { workflow_name := ex.workflow.name
                    status := .Success
                    steps := step_results
                    total_duration := 0
                    total_tokens_used := ctx2.total_tokens
                    error := none }, ctx2, calls)) := by
  rw [WorkflowExecutor.execute]

/-- C5.  Timeout enforcement.  First part: when a step declares a timeout
and the backend call does not finish within it, the attempt fails with the
distinct `TimeoutError` carrying that step's name and the configured
timeout value.  Second and third parts: a failed attempt — quantified over
an arbitrary `ExecutionError`, hence in particular a timeout — is counted
toward the retry budget exactly as a backend-reported failure: with budget
remaining the loop proceeds to the next attempt, and with the budget
exhausted the attempt's error becomes the terminal error; the continuation
never inspects the error's kind. -/
theorem c5_timeout_failure :
    (∀ (b : AttemptBehavior) (step : WorkflowStep) (t : Nat),
        step.timeout = some t → b.finishes_in_time = false →
        execute_with_timeout b step = .error (.TimeoutError step.name t))
    ∧ (∀ (backend : Backend) (step : WorkflowStep) (idx : Nat) (input : String)
        (ctx : ExecutionContext) (a rem : Nat) (e : ExecutionError),
        execute_with_timeout (backend idx a input) step = .error e →
        execute_step_with_retry_aux backend step idx input ctx a (rem + 1)
          = ((execute_step_with_retry_aux backend step idx input
                (if a > 0 then ctx.increment_retry step.name else ctx) (a + 1) rem).1,
             (execute_step_with_retry_aux backend step idx input
                (if a > 0 then ctx.increment_retry step.name else ctx) (a + 1) rem).2.1,
             { step_index := idx, attempt := a, system_prompt := step.system_prompt,
               user_input := input }
               :: (execute_step_with_retry_aux backend step idx input
                    (if a > 0 then ctx.increment_retry step.name else ctx)
                    (a + 1) rem).2.2))
    ∧ (∀ (backend : Backend) (step : WorkflowStep) (idx : Nat) (input : String)
        (ctx : ExecutionContext) (a : Nat) (e : ExecutionError),
        execute_with_timeout (backend idx a input) step = .error e →
        execute_step_with_retry_aux backend step idx input ctx a 0
          = (.error e, (if a > 0 then ctx.increment_retry step.name else ctx),
             [{ step_index := idx, attempt := a, system_prompt := step.system_prompt,
                user_input := input }])) := by
  refine ⟨?_, ?_, ?_⟩
  · intro b step t ht hf
    simp only [execute_with_timeout, create_provider_ok, ht, hf, Bool.false_eq_true,
      if_false]
  · intro backend step idx input ctx a rem e h
    rw [execute_step_with_retry_aux]
    rw [execute_step_error _ _ _ _ e h]
  · intro backend step idx input ctx a e h
    rw [execute_step_with_retry_aux]
    rw [execute_step_error _ _ _ _ e h]

/-- Witness for C5 at a concrete timed-out attempt. -/
theorem c5_timeout_failure_witness :
    execute_with_timeout
      { result := .ok { content := "x", token_usage := ⟨1, 1⟩,
                        stop_reason := .EndTurn, model := "m" },
        finishes_in_time := false, duration := 7 }
      { name := "s", system_prompt := "p", provider := .Anthropic,
        model_tier := .Medium, timeout := some 1, retry_count := none }
      = .error (.TimeoutError "s" 1) :=
  c5_timeout_failure.1 _ _ 1 rfl rfl

theorem retry_aux_error_ctx (backend : Backend) (step : WorkflowStep)
    (idx : Nat) (input : String) :
    ∀ (rem a : Nat) (ctx ctx2 : ExecutionContext) (e : ExecutionError)
      (calls : List BackendCall),
      execute_step_with_retry_aux backend step idx input ctx a rem
        = (.error e, ctx2, calls) →
      ctx2.workflow_name = ctx.workflow_name
      ∧ ctx2.steps_executed = ctx.steps_executed
      ∧ ctx2.current_step = ctx.current_step
      ∧ ctx2.step_outputs = ctx.step_outputs
      ∧ ctx2.total_tokens_used = ctx.total_tokens_used
      ∧ ctx2.execution_times = ctx.execution_times
      ∧ ∀ t, t ≠ step.name → ctx2.get_retry_count t = ctx.get_retry_count t := by
  have hstep : ∀ (a : Nat) (ctx : ExecutionContext),
      ((if a > 0 then ctx.increment_retry step.name else ctx).workflow_name
          = ctx.workflow_name)
      ∧ ((if a > 0 then ctx.increment_retry step.name else ctx).steps_executed
          = ctx.steps_executed)
      ∧ ((if a > 0 then ctx.increment_retry step.name else ctx).current_step
          = ctx.current_step)
      ∧ ((if a > 0 then ctx.increment_retry step.name else ctx).step_outputs
          = ctx.step_outputs)
      ∧ ((if a > 0 then ctx.increment_retry step.name else ctx).total_tokens_used
          = ctx.total_tokens_used)
      ∧ ((if a > 0 then ctx.increment_retry step.name else ctx).execution_times
          = ctx.execution_times)
      ∧ ∀ t, t ≠ step.name →
          (if a > 0 then ctx.increment_retry step.name else ctx).get_retry_count t
            = ctx.get_retry_count t := by
    intro a ctx
    refine ⟨?_, ?_, ?_, ?_, ?_, ?_, ?_⟩ <;>
      by_cases ha : a > 0 <;>
        first
        | (simp [ha, ExecutionContext.increment_retry]; done)
        | (simp only [ha, if_true]
           intro t ht
           exact get_retry_count_increment_ne ctx step.name t ht)
  intro rem
  induction rem with
  | zero =>
      intro a ctx ctx2 e calls h
      rw [execute_step_with_retry_aux] at h
      cases hw : execute_with_timeout (backend idx a input) step with
      | ok r =>
          rw [execute_step_ok (backend idx a input) step idx _ r hw] at h
          simp at h
      | error e2 =>
          rw [execute_step_error (backend idx a input) step idx _ e2 hw] at h
          simp only [Prod.mk.injEq] at h
          obtain ⟨-, h2, -⟩ := h
          rw [← h2]
          exact hstep a ctx
  | succ n ih =>
      intro a ctx ctx2 e calls h
      rw [execute_step_with_retry_aux] at h
      cases hw : execute_with_timeout (backend idx a input) step with
      | ok r =>
          rw [execute_step_ok (backend idx a input) step idx _ r hw] at h
          simp at h
      | error e2 =>
          rw [execute_step_error (backend idx a input) step idx _ e2 hw] at h
          simp only [Prod.mk.injEq] at h
          obtain ⟨h1, h2, h3⟩ := h
          have hrec := ih (a + 1)
            (if a > 0 then ctx.increment_retry step.name else ctx) ctx2 e
            (execute_step_with_retry_aux backend step idx input
              (if a > 0 then ctx.increment_retry step.name else ctx) (a + 1) n).2.2
            (by rw [← h1, ← h2])
          obtain ⟨p1, p2, p3, p4, p5, p6, p7⟩ := hrec
          obtain ⟨q1, q2, q3, q4, q5, q6, q7⟩ := hstep a ctx
          exact ⟨p1.trans q1, p2.trans q2, p3.trans q3, p4.trans q4,
            p5.trans q5, p6.trans q6,
            fun t ht => (p7 t ht).trans (q7 t ht)⟩

/-- C10.  A failed attempt leaves the execution context unchanged: when the
provider call fails (backend error or timeout) `execute_step` returns the
context exactly as given (first part); when the whole retry loop fails
terminally, the final context agrees with the initial one on the step
history, recorded outputs, cumulative token total, recorded durations and
in-flight marker, and on the retry counters of every other step — only the
failing step's retry counter may have moved (second part).  A `StepOutput`
is recorded only by a successful attempt, which appends exactly that
output (third part). -/
theorem c10_failed_attempt_preserves_context :
    (∀ (b : AttemptBehavior) (step : WorkflowStep) (idx : Nat)
        (ctx : ExecutionContext) (e : ExecutionError),
        execute_with_timeout b step = .error e →
        execute_step b step idx ctx = (.error e, ctx))
    ∧ (∀ (backend : Backend) (step : WorkflowStep) (idx : Nat) (input : String)
        (ctx : ExecutionContext) (e : ExecutionError) (ctx2 : ExecutionContext)
        (calls : List BackendCall),
        execute_step_with_retry backend step idx input ctx = (.error e, ctx2, calls) →
        ctx2.workflow_name = ctx.workflow_name
        ∧ ctx2.steps_executed = ctx.steps_executed
        ∧ ctx2.current_step = ctx.current_step
        ∧ ctx2.step_outputs = ctx.step_outputs
        ∧ ctx2.total_tokens_used = ctx.total_tokens_used
        ∧ ctx2.execution_times = ctx.execution_times
        ∧ ∀ t, t ≠ step.name → ctx2.get_retry_count t = ctx.get_retry_count t)
    ∧ (∀ (b : AttemptBehavior) (step : WorkflowStep) (idx : Nat)
        (ctx : ExecutionContext) (r : ProviderResponse),
        execute_with_timeout b step = .ok r →
        (execute_step b step idx ctx).2.step_outputs
          = ctx.step_outputs
            ++ [{ step_name := step.name, content := r.content,
                  token_usage := r.token_usage, execution_time := b.duration }]) := by
  refine ⟨?_, ?_, ?_⟩
  · intro b step idx ctx e h
    exact execute_step_error b step idx ctx e h
  · intro backend step idx input ctx e ctx2 calls h
    rw [execute_step_with_retry] at h
    exact retry_aux_error_ctx backend step idx input _ 0 ctx ctx2 e calls h
  · intro b step idx ctx r h
    rw [execute_step_ok b step idx ctx r h]
    simp [ExecutionContext.record_step_result]

/-- Witness for C10 at a concrete failing retry run. -/
theorem c10_failed_attempt_preserves_context_witness :
    ((ExecutionContext.new "w").record_step_result
        ⟨"prev", "o", ⟨1, 2⟩, 9⟩).step_outputs = [⟨"prev", "o", ⟨1, 2⟩, 9⟩]
    ∧ (let ctx := (ExecutionContext.new "w").record_step_result ⟨"prev", "o", ⟨1, 2⟩, 9⟩
       let backend : Backend := fun _ _ _ =>
         { result := .error .RateLimitExceeded, finishes_in_time := true, duration := 0 }
       let step : WorkflowStep :=
         { name := "s", system_prompt := "p", provider := .Anthropic,
           model_tier := .Medium, timeout := none, retry_count := some 1 }
       let run := execute_step_with_retry backend step 0 "in" ctx
       run.2.1.workflow_name = ctx.workflow_name
       ∧ run.2.1.steps_executed = ctx.steps_executed
       ∧ run.2.1.current_step = ctx.current_step
       ∧ run.2.1.step_outputs = ctx.step_outputs
       ∧ run.2.1.total_tokens_used = ctx.total_tokens_used
       ∧ run.2.1.execution_times = ctx.execution_times
       ∧ ∀ t, t ≠ "s" → run.2.1.get_retry_count t = ctx.get_retry_count t) := by
  refine ⟨by decide, ?_⟩
  exact c10_failed_attempt_preserves_context.2.1
    (fun _ _ _ =>
      { result := .error .RateLimitExceeded, finishes_in_time := true, duration := 0 })
    { name := "s", system_prompt := "p", provider := .Anthropic,
      model_tier := .Medium, timeout := none, retry_count := some 1 }
    0 "in" ((ExecutionContext.new "w").record_step_result ⟨"prev", "o", ⟨1, 2⟩, 9⟩)
    (.ProviderError .RateLimitExceeded) _ _ rfl

theorem get_retry_count_record (ctx : ExecutionContext) (o : StepOutput)
    (n : String) :
    (ctx.record_step_result o).get_retry_count n = ctx.get_retry_count n := rfl

theorem range_map_call_cons (idx a n : Nat) (sp ui : String) :
    ({ step_index := idx, attempt := a, system_prompt := sp,
       user_input := ui } : BackendCall)
        :: (List.range (n + 1)).map (fun j =>
          ({ step_index := idx, attempt := a + 1 + j, system_prompt := sp,
             user_input := ui } : BackendCall))
      = (List.range (n + 2)).map (fun j =>
          ({ step_index := idx, attempt := a + j, system_prompt := sp,
             user_input := ui } : BackendCall)) := by
  have h : ∀ j : Nat, a + 1 + j = a + (j + 1) := by omega
  conv_rhs => rw [show n + 2 = (n + 1) + 1 from rfl, List.range_succ_eq_map]
  simp only [List.map_cons, List.map_map, Function.comp_def, Nat.add_zero,
    Nat.succ_eq_add_one, h]

theorem retry_aux_all_fail (backend : Backend) (step : WorkflowStep)
    (idx : Nat) (input : String) :
    ∀ (rem a : Nat) (ctx : ExecutionContext),
      (∀ j, j ≤ rem →
        ∃ e, execute_with_timeout (backend idx (a + j) input) step = .error e) →
      ∃ e ctx2,
        execute_step_with_retry_aux backend step idx input ctx a rem
          = (.error e, ctx2,
             (List.range (rem + 1)).map (fun j =>
               { step_index := idx, attempt := a + j,
                 system_prompt := step.system_prompt, user_input := input }))
        ∧ execute_with_timeout (backend idx (a + rem) input) step = .error e := by
  intro rem
  induction rem with
  | zero =>
      intro a ctx hall
      obtain ⟨e0, he0⟩ := hall 0 (Nat.le_refl 0)
      rw [Nat.add_zero] at he0
      refine ⟨e0, (if a > 0 then ctx.increment_retry step.name else ctx), ?_, ?_⟩
      · rw [execute_step_with_retry_aux, execute_step_error _ _ _ _ e0 he0]
        simp [List.range_succ]
      · rw [Nat.add_zero]
        exact he0
  | succ n ih =>
      intro a ctx hall
      obtain ⟨e0, he0⟩ := hall 0 (Nat.zero_le _)
      rw [Nat.add_zero] at he0
      have hall2 : ∀ j, j ≤ n →
          ∃ e, execute_with_timeout (backend idx (a + 1 + j) input) step = .error e := by
        intro j hj
        have hh := hall (j + 1) (by omega)
        rw [show a + (j + 1) = a + 1 + j by omega] at hh
        exact hh
      obtain ⟨e, ctx2, heq, hlast⟩ :=
        ih (a + 1) (if a > 0 then ctx.increment_retry step.name else ctx) hall2
      refine ⟨e, ctx2, ?_, ?_⟩
      · rw [execute_step_with_retry_aux, execute_step_error _ _ _ _ e0 he0]
        simp only [heq]
        rw [range_map_call_cons]
      · rw [show a + (n + 1) = a + 1 + n by omega]
        exact hlast

/-- C3.  Retry exhaustion: for a step configured with `retry_count = R` and
a backend failing on every attempt, the retry wrapper invokes the backend
exactly `R + 1` times — attempts `0` through `R` in order — and returns the
error observed on the last attempt; no step result is produced (the outcome
is an error, and by C10 no step output is recorded).  The second part lifts
this to `execute` for a workflow beginning with such a step: `execute`
returns the last observed error after the `(R+1)`-th failure. -/
theorem c3_retry_exhaustion :
    (∀ (backend : Backend) (step : WorkflowStep) (idx : Nat) (input : String)
        (ctx : ExecutionContext) (R : Nat),
        step.retry_count = some R →
        (∀ j, ∃ e, execute_with_timeout (backend idx j input) step = .error e) →
        ∃ e ctx2 calls,
          execute_step_with_retry backend step idx input ctx = (.error e, ctx2, calls)
          ∧ calls.length = R + 1
          ∧ calls = (List.range (R + 1)).map (fun j =>
              { step_index := idx, attempt := j,
                system_prompt := step.system_prompt, user_input := input })
          ∧ execute_with_timeout (backend idx R input) step = .error e)
    ∧ (∀ (backend : Backend) (ex : WorkflowExecutor) (step : WorkflowStep)
        (rest : List WorkflowStep) (R : Nat),
        ex.workflow.steps = step :: rest →
        step.retry_count = some R →
        (∀ j, ∃ e, execute_with_timeout
          (backend 0 j (ex.initial_input.getD "")) step = .error e) →
        ∃ e ctx2 calls,
          ex.execute backend = (.error e, ctx2, calls)
          ∧ execute_with_timeout
              (backend 0 R (ex.initial_input.getD "")) step = .error e) := by
  constructor
  · intro backend step idx input ctx R hR hfail
    obtain ⟨e, ctx2, heq, hlast⟩ := retry_aux_all_fail backend step idx input R 0 ctx
      (fun j _ => by simpa using hfail j)
    refine ⟨e, ctx2,
      (List.range (R + 1)).map (fun j =>
        { step_index := idx, attempt := j,
          system_prompt := step.system_prompt, user_input := input }), ?_, ?_, rfl, ?_⟩
    · rw [execute_step_with_retry, hR]
      simpa using heq
    · simp
    · simpa using hlast
  · intro backend ex step rest R hlist hR hfail
    obtain ⟨e, ctx2, heq, hlast⟩ := retry_aux_all_fail backend step 0
      (ex.initial_input.getD "") R 0
      ((ExecutionContext.new ex.workflow.name).start_step step.name)
      (fun j _ => by simpa using hfail j)
    have heq2 : execute_step_with_retry backend step 0 (ex.initial_input.getD "")
        ((ExecutionContext.new ex.workflow.name).start_step step.name)
        = (.error e, ctx2,
           (List.range (R + 1)).map (fun j =>
             { step_index := 0, attempt := j, system_prompt := step.system_prompt,
               user_input := ex.initial_input.getD "" })) := by
      rw [execute_step_with_retry, hR]
      simpa using heq
    refine ⟨e, ctx2,
      (List.range (R + 1)).map (fun j =>
        { step_index := 0, attempt := j, system_prompt := step.system_prompt,
          user_input := ex.initial_input.getD "" }), ?_, by simpa using hlast⟩
    rw [execute_unfold, hlist, execute_steps_cons, heq2]

/-- Witness for C3 with `R = 2` and an always-failing backend. -/
theorem c3_retry_exhaustion_witness :
    ∃ e ctx2 calls,
      execute_step_with_retry
        (fun _ _ _ =>
          { result := .error .RateLimitExceeded, finishes_in_time := true, duration := 0 })
        { name := "s", system_prompt := "p", provider := .Anthropic,
          model_tier := .Medium, timeout := none, retry_count := some 2 }
        0 "in" (ExecutionContext.new "w")
        = (.error e, ctx2, calls)
      ∧ calls.length = 2 + 1
      ∧ calls = (List.range (2 + 1)).map (fun j =>
          { step_index := 0, attempt := j, system_prompt := "p", user_input := "in" })
      ∧ execute_with_timeout
          { result := .error .RateLimitExceeded, finishes_in_time := true, duration := 0 }
          { name := "s", system_prompt := "p", provider := .Anthropic,
            model_tier := .Medium, timeout := none, retry_count := some 2 }
          = .error e :=
  c3_retry_exhaustion.1 _ _ 0 "in" (ExecutionContext.new "w") 2 rfl
    (fun _ => ⟨.ProviderError .RateLimitExceeded, rfl⟩)

theorem retry_aux_fail_then_succeed (backend : Backend) (step : WorkflowStep)
    (idx : Nat) (input : String) :
    ∀ (d a rem : Nat) (ctx : ExecutionContext) (resp : ProviderResponse),
      d ≤ rem →
      (∀ j, j < d →
        ∃ e, execute_with_timeout (backend idx (a + j) input) step = .error e) →
      execute_with_timeout (backend idx (a + d) input) step = .ok resp →
      ctx.get_retry_count step.name + d + 1 < u32Mod →
      ∃ r ctx2,
        execute_step_with_retry_aux backend step idx input ctx a rem
          = (.ok r, ctx2,
             (List.range (d + 1)).map (fun j =>
               { step_index := idx, attempt := a + j,
                 system_prompt := step.system_prompt, user_input := input }))
        ∧ (0 < a + d → r.status = .Retried (a + d) ∧ r.retry_count = a + d)
        ∧ (a + d = 0 → r.status = .Success ∧ r.retry_count = 0)
        ∧ ctx2.get_retry_count step.name
            = ctx.get_retry_count step.name + (if a = 0 then d else d + 1) := by
  intro d
  induction d with
  | zero =>
      intro a rem ctx resp _ _ hsucc hbound
      rw [Nat.add_zero] at hsucc
      by_cases ha : a > 0
      · refine ⟨{ step_name := step.name, index := idx, status := .Retried a,
                  output := some resp.content, token_usage := resp.token_usage,
                  duration := (backend idx a input).duration, retry_count := a,
                  error := none },
                (ctx.increment_retry step.name).record_step_result
                  { step_name := step.name, content := resp.content,
                    token_usage := resp.token_usage,
                    execution_time := (backend idx a input).duration },
                ?_, ?_, ?_, ?_⟩
        · rw [execute_step_with_retry_aux, execute_step_ok _ _ _ _ resp hsucc]
          simp [ha, List.range_succ]
        · intro _
          exact ⟨rfl, rfl⟩
        · intro h0
          omega
        · rw [get_retry_count_record, get_retry_count_increment_eq,
            Nat.mod_eq_of_lt (by omega), if_neg (by omega : ¬a = 0)]
      · refine ⟨{ step_name := step.name, index := idx, status := .Success,
                  output := some resp.content, token_usage := resp.token_usage,
                  duration := (backend idx a input).duration, retry_count := 0,
                  error := none },
                ctx.record_step_result
                  { step_name := step.name, content := resp.content,
                    token_usage := resp.token_usage,
                    execution_time := (backend idx a input).duration },
                ?_, ?_, ?_, ?_⟩
        · rw [execute_step_with_retry_aux, execute_step_ok _ _ _ _ resp hsucc]
          simp [ha, List.range_succ]
        · intro h0
          omega
        · intro _
          exact ⟨rfl, rfl⟩
        · rw [get_retry_count_record, if_pos (by omega : a = 0)]
          omega
  | succ d ih =>
      intro a rem ctx resp hrem hfail hsucc hbound
      obtain ⟨e0, he0⟩ := hfail 0 (by omega)
      rw [Nat.add_zero] at he0
      obtain ⟨rem2, hrem2⟩ : ∃ m, rem = m + 1 := ⟨rem - 1, by omega⟩
      subst hrem2
      have hfail2 : ∀ j, j < d →
          ∃ e, execute_with_timeout (backend idx (a + 1 + j) input) step = .error e := by
        intro j hj
        have hh := hfail (j + 1) (by omega)
        rw [show a + (j + 1) = a + 1 + j by omega] at hh
        exact hh
      have hsucc2 : execute_with_timeout (backend idx (a + 1 + d) input) step = .ok resp := by
        rw [show a + 1 + d = a + (d + 1) by omega]
        exact hsucc
      have hc1 : (if a > 0 then ctx.increment_retry step.name else ctx).get_retry_count
            step.name + d + 1 < u32Mod := by
        by_cases ha : a > 0
        · rw [if_pos ha, get_retry_count_increment_eq, Nat.mod_eq_of_lt (by omega)]
          omega
        · rw [if_neg ha]
          omega
      obtain ⟨r, ctx2, heq, hpos, hz, hcount⟩ :=
        ih (a + 1) rem2 (if a > 0 then ctx.increment_retry step.name else ctx)
          resp (by omega) hfail2 hsucc2 hc1
      refine ⟨r, ctx2, ?_, ?_, ?_, ?_⟩
      · rw [execute_step_with_retry_aux, execute_step_error _ _ _ _ e0 he0]
        simp only [heq]
        rw [range_map_call_cons]
      · intro _
        have hp := hpos (by omega)
        rw [show a + 1 + d = a + (d + 1) by omega] at hp
        exact hp
      · intro h0
        omega
      · have hne : ¬a + 1 = 0 := by omega
        rw [hcount, if_neg hne]
        by_cases ha : a > 0
        · rw [if_pos ha, get_retry_count_increment_eq, Nat.mod_eq_of_lt (by omega),
            if_neg (by omega : ¬a = 0)]
          omega
        · rw [if_neg ha, if_pos (by omega : a = 0)]

/-- C4.  Retry recovery: for a step with `retry_count = R`, `k ≤ R`,
`0 < k`, a backend failing on attempts `0 .. k-1` and succeeding on attempt
`k`, the retry wrapper returns a step result with status `Retried` carrying
`attempts = k` and `retry_count = k`, the context's retry counter for the
step reads `k` (starting from `0`), and the backend is invoked exactly
`k + 1` times — no further attempt after the success. -/
theorem c4_retry_recovery (backend : Backend) (step : WorkflowStep)
    (idx : Nat) (input : String) (ctx : ExecutionContext) (R k : Nat)
    (hR : step.retry_count = some R) (hkR : k ≤ R) (hk : 0 < k)
    (resp : ProviderResponse)
    (hfail : ∀ j, j < k →
      ∃ e, execute_with_timeout (backend idx j input) step = .error e)
    (hsucc : execute_with_timeout (backend idx k input) step = .ok resp)
    (hzero : ctx.get_retry_count step.name = 0)
    (hbound : k + 1 < u32Mod) :
    ∃ r ctx2 calls,
      execute_step_with_retry backend step idx input ctx = (.ok r, ctx2, calls)
      ∧ r.status = .Retried k
      ∧ r.retry_count = k
      ∧ ctx2.get_retry_count step.name = k
      ∧ calls.length = k + 1 := by
  obtain ⟨r, ctx2, heq, hpos, hz, hcount⟩ :=
    retry_aux_fail_then_succeed backend step idx input k 0 R ctx resp hkR
      (fun j hj => by simpa using hfail j hj)
      (by simpa using hsucc)
      (by omega)
  obtain ⟨hst, hrc⟩ := hpos (by omega)
  refine ⟨r, ctx2,
    (List.range (k + 1)).map (fun j =>
      { step_index := idx, attempt := j,
        system_prompt := step.system_prompt, user_input := input }), ?_, ?_, ?_, ?_, ?_⟩
  · rw [execute_step_with_retry, hR]
    simpa using heq
  · simpa using hst
  · simpa using hrc
  · rw [hcount, hzero]
    simp
  · simp

/-- Witness for C4 with `R = 2`, failure on attempt 0 and success on
attempt 1. -/
theorem c4_retry_recovery_witness :
    ∃ r ctx2 calls,
      execute_step_with_retry
        (fun _ a _ =>
          if a = 0 then
            { result := .error .RateLimitExceeded, finishes_in_time := true,
              duration := 0 }
          else
            { result := .ok { content := "out", token_usage := ⟨1, 2⟩,
                              stop_reason := .EndTurn, model := "m" },
              finishes_in_time := true, duration := 3 })
        { name := "s", system_prompt := "p", provider := .Anthropic,
          model_tier := .Medium, timeout := none, retry_count := some 2 }
        0 "in" (ExecutionContext.new "w")
        = (.ok r, ctx2, calls)
      ∧ r.status = .Retried 1
      ∧ r.retry_count = 1
      ∧ ctx2.get_retry_count "s" = 1
      ∧ calls.length = 1 + 1 :=
  c4_retry_recovery _ _ 0 "in" (ExecutionContext.new "w") 2 1 rfl (by omega)
    (by omega)
    { content := "out", token_usage := ⟨1, 2⟩, stop_reason := .EndTurn, model := "m" }
    (fun j hj => ⟨.ProviderError .RateLimitExceeded, by
      have hj0 : j = 0 := by omega
      subst hj0
      rfl⟩)
    rfl rfl (by decide)

theorem retry_aux_calls_index (backend : Backend) (step : WorkflowStep)
    (idx : Nat) (input : String) :
    ∀ (rem a : Nat) (ctx : ExecutionContext) (c : BackendCall),
      c ∈ (execute_step_with_retry_aux backend step idx input ctx a rem).2.2 →
      c.step_index = idx ∧ c.system_prompt = step.system_prompt
        ∧ c.user_input = input := by
  intro rem
  induction rem with
  | zero =>
      intro a ctx c hc
      rw [execute_step_with_retry_aux] at hc
      cases hw : execute_with_timeout (backend idx a input) step with
      | ok r =>
          rw [execute_step_ok _ _ _ _ r hw] at hc
          simp only [List.mem_singleton] at hc
          rw [hc]
          exact ⟨rfl, rfl, rfl⟩
      | error e2 =>
          rw [execute_step_error _ _ _ _ e2 hw] at hc
          simp only [List.mem_singleton] at hc
          rw [hc]
          exact ⟨rfl, rfl, rfl⟩
  | succ n ih =>
      intro a ctx c hc
      rw [execute_step_with_retry_aux] at hc
      cases hw : execute_with_timeout (backend idx a input) step with
      | ok r =>
          rw [execute_step_ok _ _ _ _ r hw] at hc
          simp only [List.mem_singleton] at hc
          rw [hc]
          exact ⟨rfl, rfl, rfl⟩
      | error e2 =>
          rw [execute_step_error _ _ _ _ e2 hw] at hc
          simp only [List.mem_cons] at hc
          rcases hc with hc | hc
          · rw [hc]
            exact ⟨rfl, rfl, rfl⟩
          · exact ih (a + 1) _ c hc

/-- C1.  Terminal step failure aborts the run.  First part: whenever the
step runner (`execute_step_with_retry`) for the step at index `idx` fails
terminally, the step loop returns exactly that error, that context and
exactly that step's backend calls — the remaining steps are never run, and
every backend call made belongs to the failing step's index.  Second part:
`execute` then surfaces exactly that error to the caller — an error value,
never a `WorkflowResult` with a failed status. -/
theorem c1_step_failure_aborts :
    (∀ (backend : Backend) (step : WorkflowStep) (rest : List WorkflowStep)
        (idx : Nat) (input : String) (ctx : ExecutionContext)
        (e : ExecutionError) (ctx2 : ExecutionContext) (calls : List BackendCall),
        execute_step_with_retry backend step idx input (ctx.start_step step.name)
          = (.error e, ctx2, calls) →
        execute_steps backend (step :: rest) idx input ctx = (.error e, ctx2, calls)
        ∧ ∀ c ∈ calls, c.step_index = idx)
    ∧ (∀ (backend : Backend) (ex : WorkflowExecutor) (e : ExecutionError)
        (ctx2 : ExecutionContext) (calls : List BackendCall),
        execute_steps backend ex.workflow.steps 0 (ex.initial_input.getD "")
            (ExecutionContext.new ex.workflow.name)
          = (.error e, ctx2, calls) →
        ex.execute backend = (.error e, ctx2, calls)) := by
  constructor
  · intro backend step rest idx input ctx e ctx2 calls h
    constructor
    · rw [execute_steps_cons, h]
    · intro c hc
      have hmem : c ∈ (execute_step_with_retry_aux backend step idx input
          (ctx.start_step step.name) 0 (step.retry_count.getD 0)).2.2 := by
        rw [execute_step_with_retry] at h
        rw [h]
        exact hc
      exact (retry_aux_calls_index backend step idx input _ 0 _ c hmem).1
  · intro backend ex e ctx2 calls h
    rw [execute_unfold, h]

/-- Witness for C1 with a two-step workflow whose first step fails. -/
theorem c1_step_failure_aborts_witness :
    execute_steps
      (fun _ _ _ =>
        { result := .error .RateLimitExceeded, finishes_in_time := true, duration := 0 })
      [{ name := "s0", system_prompt := "p0", provider := .Anthropic,
         model_tier := .Medium, timeout := none, retry_count := none },
       { name := "s1", system_prompt := "p1", provider := .Anthropic,
         model_tier := .Medium, timeout := none, retry_count := none }]
      0 "" (ExecutionContext.new "w")
      = (.error (.ProviderError .RateLimitExceeded),
         (ExecutionContext.new "w").start_step "s0",
         [{ step_index := 0, attempt := 0, system_prompt := "p0", user_input := "" }])
    ∧ ∀ c ∈ [({ step_index := 0, attempt := 0, system_prompt := "p0",
                user_input := "" } : BackendCall)],
        c.step_index = 0 :=
  c1_step_failure_aborts.1 _ _ _ 0 "" (ExecutionContext.new "w")
    (.ProviderError .RateLimitExceeded) _ _ rfl

theorem specSequencedCalls_length (backend : Backend) :
    ∀ (steps : List WorkflowStep) (idx : Nat) (input : String),
      (specSequencedCalls backend steps idx input).length = steps.length := by
  intro steps
  induction steps with
  | nil => intro idx input; rfl
  | cons s rest ih =>
      intro idx input
      simp [specSequencedCalls, ih]

theorem retry_first_attempt_ok (backend : Backend) (step : WorkflowStep)
    (idx : Nat) (input : String) (ctx : ExecutionContext) (rem : Nat)
    (r : ProviderResponse)
    (h : execute_with_timeout (backend idx 0 input) step = .ok r) :
    execute_step_with_retry_aux backend step idx input ctx 0 rem
      = (.ok { step_name := step.name, index := idx, status := .Success,
               output := some r.content, token_usage := r.token_usage,
               duration := (backend idx 0 input).duration, retry_count := 0,
               error := none },
         ctx.record_step_result
           { step_name := step.name, content := r.content,
             token_usage := r.token_usage,
             execution_time := (backend idx 0 input).duration },
         [{ step_index := idx, attempt := 0, system_prompt := step.system_prompt,
            user_input := input }]) := by
  rw [execute_step_with_retry_aux, execute_step_ok _ _ _ _ r h]
  simp

theorem execute_steps_all_ok (backend : Backend)
    (hok : ∀ i input, (backend i 0 input).finishes_in_time = true
        ∧ ∃ r, (backend i 0 input).result = .ok r) :
    ∀ (steps : List WorkflowStep) (idx : Nat) (input : String)
      (ctx : ExecutionContext),
      ∃ results ctx2,
        execute_steps backend steps idx input ctx
          = (.ok results, ctx2, specSequencedCalls backend steps idx input) := by
  intro steps
  induction steps with
  | nil =>
      intro idx input ctx
      exact ⟨[], ctx, rfl⟩
  | cons step rest ih =>
      intro idx input ctx
      obtain ⟨hf, r, hr⟩ := hok idx input
      have hw : execute_with_timeout (backend idx 0 input) step = .ok r :=
        execute_with_timeout_ok _ _ r hr hf
      obtain ⟨results, ctx2, hrest⟩ := ih (idx + 1) r.content
        ((ctx.start_step step.name).record_step_result
          { step_name := step.name, content := r.content,
            token_usage := r.token_usage,
            execution_time := (backend idx 0 input).duration })
      refine ⟨{ step_name := step.name, index := idx, status := .Success,
                output := some r.content, token_usage := r.token_usage,
                duration := (backend idx 0 input).duration, retry_count := 0,
                error := none } :: results, ctx2, ?_⟩
      rw [execute_steps_cons, execute_step_with_retry,
        retry_first_attempt_ok backend step idx input _ _ r hw]
      simp only [hrest]
      simp [specSequencedCalls, attempt_content, hr]

/-- C2.  Sequencing: when every backend call succeeds, `execute` returns a
successful result and its backend-call trace is exactly the sequence the
spec describes — one call per step in definition order (so exactly N calls
for N steps), each call's `user_input` equal to the previous response's
`content`, and the first call's `user_input` equal to the caller-provided
initial input (the empty string when none was set), as recorded in the
definition of `specSequencedCalls`. -/
theorem c2_sequencing (backend : Backend) (ex : WorkflowExecutor)
    (hok : ∀ i input, (backend i 0 input).finishes_in_time = true
        ∧ ∃ r, (backend i 0 input).result = .ok r) :
    ∃ result ctx2,
      ex.execute backend
        = (.ok result, ctx2,
           specSequencedCalls backend ex.workflow.steps 0 (ex.initial_input.getD ""))
      ∧ (specSequencedCalls backend ex.workflow.steps 0
            (ex.initial_input.getD "")).length = ex.workflow.steps.length := by
  obtain ⟨results, ctx2, hsteps⟩ := execute_steps_all_ok backend hok
    ex.workflow.steps 0 (ex.initial_input.getD "")
    (ExecutionContext.new ex.workflow.name)
  refine ⟨{ workflow_name := ex.workflow.name, status := .Success,
            steps := results, total_duration := 0,
            total_tokens_used := ctx2.total_tokens, error := none },
          ctx2, ?_, specSequencedCalls_length backend _ _ _⟩
  rw [execute_unfold, hsteps]

/-- Witness for C2 with a two-step workflow and an always-succeeding
backend. -/
theorem c2_sequencing_witness :
    ∃ result ctx2,
      WorkflowExecutor.execute
        { workflow :=
            { name := "w"
              steps := [{ name := "A", system_prompt := "pa", provider := .Anthropic,
                          model_tier := .Medium, timeout := none, retry_count := none },
                        { name := "B", system_prompt := "pb", provider := .OpenAI,
                          model_tier := .Light, timeout := none, retry_count := none }] }
          initial_input := none }
        (fun _ _ _ =>
          { result := .ok { content := "out", token_usage := ⟨1, 2⟩,
                            stop_reason := .EndTurn, model := "m" },
            finishes_in_time := true, duration := 4 })
        = (.ok result, ctx2,
           specSequencedCalls
             (fun _ _ _ =>
               { result := .ok { content := "out", token_usage := ⟨1, 2⟩,
                                 stop_reason := .EndTurn, model := "m" },
                 finishes_in_time := true, duration := 4 })
             [{ name := "A", system_prompt := "pa", provider := .Anthropic,
                model_tier := .Medium, timeout := none, retry_count := none },
              { name := "B", system_prompt := "pb", provider := .OpenAI,
                model_tier := .Light, timeout := none, retry_count := none }]
             0 "")
      ∧ (specSequencedCalls
           (fun _ _ _ =>
             { result := .ok { content := "out", token_usage := ⟨1, 2⟩,
                               stop_reason := .EndTurn, model := "m" },
               finishes_in_time := true, duration := 4 })
           [{ name := "A", system_prompt := "pa", provider := .Anthropic,
              model_tier := .Medium, timeout := none, retry_count := none },
            { name := "B", system_prompt := "pb", provider := .OpenAI,
              model_tier := .Light, timeout := none, retry_count := none }]
           0 "").length
          = ([{ name := "A", system_prompt := "pa", provider := .Anthropic,
                model_tier := .Medium, timeout := none, retry_count := none },
              { name := "B", system_prompt := "pb", provider := .OpenAI,
                model_tier := .Light, timeout := none, retry_count := none }] :
              List WorkflowStep).length :=
  c2_sequencing
    (fun _ _ _ =>
      { result := .ok { content := "out", token_usage := ⟨1, 2⟩,
                        stop_reason := .EndTurn, model := "m" },
        finishes_in_time := true, duration := 4 })
    { workflow :=
        { name := "w"
          steps := [{ name := "A", system_prompt := "pa", provider := .Anthropic,
                      model_tier := .Medium, timeout := none, retry_count := none },
                    { name := "B", system_prompt := "pb", provider := .OpenAI,
                      model_tier := .Light, timeout := none, retry_count := none }] }
      initial_input := none }
    (fun _ _ => ⟨rfl, ⟨{ content := "out", token_usage := ⟨1, 2⟩,
                         stop_reason := .EndTurn, model := "m" }, rfl⟩⟩)

theorem retry_aux_ok_status (backend : Backend) (step : WorkflowStep)
    (idx : Nat) (input : String) :
    ∀ (rem a : Nat) (ctx : ExecutionContext) (r : StepResult)
      (ctx2 : ExecutionContext) (calls : List BackendCall),
      execute_step_with_retry_aux backend step idx input ctx a rem
        = (.ok r, ctx2, calls) →
      r.status = .Success ∨ ∃ k, r.status = .Retried k := by
  have hok : ∀ (a : Nat) (ctx : ExecutionContext) (r : StepResult)
      (ctx2 : ExecutionContext) (calls : List BackendCall) (resp : ProviderResponse),
      execute_with_timeout (backend idx a input) step = .ok resp →
      ∀ rem, execute_step_with_retry_aux backend step idx input ctx a rem
          = (.ok r, ctx2, calls) →
        r.status = .Success ∨ ∃ k, r.status = .Retried k := by
    intro a ctx r ctx2 calls resp hw rem h
    rw [execute_step_with_retry_aux, execute_step_ok _ _ _ _ resp hw] at h
    simp only [Prod.mk.injEq] at h
    obtain ⟨h1, -, -⟩ := h
    injection h1 with h1
    by_cases ha : a > 0
    · right
      refine ⟨a, ?_⟩
      rw [← h1]
      simp [ha]
    · left
      rw [← h1]
      simp [ha]
  intro rem
  induction rem with
  | zero =>
      intro a ctx r ctx2 calls h
      cases hw : execute_with_timeout (backend idx a input) step with
      | ok resp => exact hok a ctx r ctx2 calls resp hw 0 h
      | error e2 =>
          rw [execute_step_with_retry_aux,
            execute_step_error _ _ _ _ e2 hw] at h
          simp at h
  | succ n ih =>
      intro a ctx r ctx2 calls h
      cases hw : execute_with_timeout (backend idx a input) step with
      | ok resp => exact hok a ctx r ctx2 calls resp hw (n + 1) h
      | error e2 =>
          rw [execute_step_with_retry_aux,
            execute_step_error _ _ _ _ e2 hw] at h
          simp only [Prod.mk.injEq] at h
          obtain ⟨h1, h2, h3⟩ := h
          exact ih (a + 1)
            (if a > 0 then ctx.increment_retry step.name else ctx) r ctx2 _
            (by
              rw [show execute_step_with_retry_aux backend step idx input
                  (if a > 0 then ctx.increment_retry step.name else ctx) (a + 1) n
                  = ((execute_step_with_retry_aux backend step idx input
                      (if a > 0 then ctx.increment_retry step.name else ctx)
                      (a + 1) n).1,
                     (execute_step_with_retry_aux backend step idx input
                      (if a > 0 then ctx.increment_retry step.name else ctx)
                      (a + 1) n).2.1,
                     (execute_step_with_retry_aux backend step idx input
                      (if a > 0 then ctx.increment_retry step.name else ctx)
                      (a + 1) n).2.2)
                from rfl]
              rw [h1, h2])

theorem execute_steps_ok_status (backend : Backend) :
    ∀ (steps : List WorkflowStep) (idx : Nat) (input : String)
      (ctx : ExecutionContext) (results : List StepResult)
      (ctx2 : ExecutionContext) (calls : List BackendCall),
      execute_steps backend steps idx input ctx = (.ok results, ctx2, calls) →
      ∀ sr ∈ results, sr.status = .Success ∨ ∃ k, sr.status = .Retried k := by
  intro steps
  induction steps with
  | nil =>
      intro idx input ctx results ctx2 calls h sr hsr
      rw [execute_steps_nil] at h
      simp only [Prod.mk.injEq] at h
      obtain ⟨h1, -, -⟩ := h
      injection h1 with h1
      rw [← h1] at hsr
      cases hsr
  | cons step rest ih =>
      intro idx input ctx results ctx2 calls h sr hsr
      rw [execute_steps_cons] at h
      cases hrun : execute_step_with_retry backend step idx input
          (ctx.start_step step.name) with
      | mk res1 rest1 =>
          obtain ⟨ctxa, calls1⟩ := rest1
          rw [hrun] at h
          cases res1 with
          | error e => simp at h
          | ok r1 =>
              simp only [] at h
              cases hrec : execute_steps backend rest (idx + 1)
                  (match r1.output with
                   | some output => output
                   | none => input) ctxa with
              | mk res2 rest2 =>
                  obtain ⟨ctxb, calls2⟩ := rest2
                  rw [hrec] at h
                  cases res2 with
                  | error e => simp at h
                  | ok results2 =>
                      simp only [Prod.mk.injEq] at h
                      obtain ⟨h1, h2, h3⟩ := h
                      injection h1 with h1
                      rw [← h1] at hsr
                      rcases List.mem_cons.mp hsr with hEq | hMem
                      · rw [hEq]
                        exact retry_aux_ok_status backend step idx input
                          (step.retry_count.getD 0) 0 (ctx.start_step step.name)
                          r1 ctxa calls1
                          (by rw [← execute_step_with_retry]; exact hrun)
                      · exact ih (idx + 1) _ ctxa results2 ctxb calls2 hrec sr hMem

/-- C9.  Whenever `execute` returns a successful result, that result's
overall status is `Success` (`is_success` holds) — `execute` never
constructs `PartialSuccess` or `Failed` — and every step result it contains
has status `Success` or `Retried`: no `Skipped` or `Failed` step result is
ever produced. -/
theorem c9_success_only (backend : Backend) (ex : WorkflowExecutor)
    (result : WorkflowResult) (ctx2 : ExecutionContext)
    (calls : List BackendCall)
    (h : ex.execute backend = (.ok result, ctx2, calls)) :
    result.status = .Success
    ∧ result.is_success = true
    ∧ ∀ sr ∈ result.steps, sr.status = .Success ∨ ∃ k, sr.status = .Retried k := by
  rw [execute_unfold] at h
  cases hrun : execute_steps backend ex.workflow.steps 0 (ex.initial_input.getD "")
      (ExecutionContext.new ex.workflow.name) with
  | mk res rest =>
      obtain ⟨ctxa, callsa⟩ := rest
      rw [hrun] at h
      cases res with
      | error e => simp at h
      | ok results =>
          simp only [Prod.mk.injEq] at h
          obtain ⟨h1, h2, h3⟩ := h
          injection h1 with h1
          rw [← h1]
          refine ⟨rfl, rfl, ?_⟩
          intro sr hsr
          exact execute_steps_ok_status backend ex.workflow.steps 0
            (ex.initial_input.getD "") (ExecutionContext.new ex.workflow.name)
            results ctxa callsa hrun sr hsr

/-- Witness for C9 at a concrete successful one-step run. -/
theorem c9_success_only_witness :
    (WorkflowResult.mk "w" .Success
        [{ step_name := "s", index := 0, status := .Success, output := some "out",
           token_usage := ⟨1, 2⟩, duration := 3, retry_count := 0,
           error := none }] 0 3 none).status = .Success
    ∧ (WorkflowResult.mk "w" .Success
        [{ step_name := "s", index := 0, status := .Success, output := some "out",
           token_usage := ⟨1, 2⟩, duration := 3, retry_count := 0,
           error := none }] 0 3 none).is_success = true
    ∧ ∀ sr ∈ (WorkflowResult.mk "w" .Success
        [{ step_name := "s", index := 0, status := .Success, output := some "out",
           token_usage := ⟨1, 2⟩, duration := 3, retry_count := 0,
           error := none }] 0 3 none).steps,
        sr.status = .Success ∨ ∃ k, sr.status = .Retried k :=
  c9_success_only
    (fun _ _ _ =>
      { result := .ok { content := "out", token_usage := ⟨1, 2⟩,
                        stop_reason := .EndTurn, model := "m" },
        finishes_in_time := true, duration := 3 })
    { workflow :=
        { name := "w"
          steps := [{ name := "s", system_prompt := "p", provider := .Anthropic,
                      model_tier := .Medium, timeout := none, retry_count := none }] }
      initial_input := none }
    (WorkflowResult.mk "w" .Success
      [{ step_name := "s", index := 0, status := .Success, output := some "out",
         token_usage := ⟨1, 2⟩, duration := 3, retry_count := 0, error := none }]
      0 3 none)
    { workflow_name := "w", steps_executed := ["s"], current_step := none,
      step_outputs := [⟨"s", "out", ⟨1, 2⟩, 3⟩], total_tokens_used := 3,
      execution_times := [3], retry_counts := [] }
    [{ step_index := 0, attempt := 0, system_prompt := "p", user_input := "" }]
    rfl

end MeltedAdw
